import Mathlib

/-!
Verification of the planetsimulator repository's text-editing scripts.

The repository's mutating scripts (`cleanup_code.py`, `fix_terrain.py`,
`clean_cmake.py`) and its scanners (`scripts/analyze_tests.py`,
`scripts/analysis/analyze_mesh.py`) are embedded shallowly below: the
filesystem is a map from path to optional content, Python string
primitives (`in`, `str.replace`, `str.strip`, `str.startswith`,
`os.path.basename`, `f.readlines`) are executable Lean functions on
character lists, and each script becomes a function from filesystem to
filesystem together with an event trace recording copies, writes and
moves in the order the script performs them.
-/

namespace PlanetSim

/-! ## Filesystem model -/

/-- A filesystem: each path maps to the file's content, or `none` when no
file exists at that path. -/
def FS : Type := String → Option String

/-- Write (or delete, with `none`) the file at path `p`. -/
def setFile (fs : FS) (p : String) (v : Option String) : FS :=
  fun q => if q = p then v else fs q

theorem setFile_same (fs : FS) (p : String) (v : Option String) :
    setFile fs p v p = v := by
  simp [setFile]

theorem setFile_other (fs : FS) (p q : String) (v : Option String) (h : q ≠ p) :
    setFile fs p v q = fs q := by
  simp [setFile, h]

/-- One filesystem side effect performed by a script, in program order:
`copy` is `shutil.copy2`, `write` is an `open(path, "w")` write, `moved`
is `shutil.move`, and `skipped` records the `"Not found"` message printed
for a missing source. -/
inductive FsEvent
  | copy (src dst : String)
  | write (path : String)
  | moved (src dst : String)
  | skipped (path : String)
deriving DecidableEq

/-! ## Python string primitives -/

/-- `pat` begins `s` (character lists). -/
def listStartsWith : List Char → List Char → Bool
  | [], _ => true
  | _ :: _, [] => false
  | p :: ps, c :: cs => p == c && listStartsWith ps cs

/-- `needle` occurs somewhere in `s`: Python's `needle in s`. -/
def containsList (needle : List Char) : List Char → Bool
  | [] => listStartsWith needle []
  | c :: cs => listStartsWith needle (c :: cs) || containsList needle cs

/-- Python `needle in s` on strings. -/
def strContains (s needle : String) : Bool :=
  containsList needle.data s.data

/-- Python `s.startswith(pat)`. -/
def strStartsWith (s pat : String) : Bool :=
  listStartsWith pat.data s.data

/-- Python `s.endswith(suf)`. -/
def strEndsWith (s suf : String) : Bool :=
  listStartsWith suf.data.reverse s.data.reverse

/-- Core of Python `str.replace` for a non-empty pattern: scan left to
right, replacing each non-overlapping occurrence of `old` by `new`.  The
fuel argument (instantiated with the length of the scanned list) only
makes the recursion structural; every step consumes at least one
character, so the fuel never runs out on the instantiations used. -/
def pyRepFuel (old new : List Char) : Nat → List Char → List Char
  | 0, s => s
  | _ + 1, [] => []
  | fuel + 1, c :: cs =>
    if !old.isEmpty && listStartsWith old (c :: cs) then
      new ++ pyRepFuel old new fuel (List.drop (old.length - 1) cs)
    else
      c :: pyRepFuel old new fuel cs

/-- Python `str.replace` with an empty pattern inserts `new` between
every pair of adjacent characters and at both ends. -/
def pyRepEmpty (new : List Char) : List Char → List Char
  | [] => new
  | c :: cs => new ++ c :: pyRepEmpty new cs

/-- Python `s.replace(old, new)`: every non-overlapping occurrence of
`old` in `s`, scanned left to right, is replaced by `new`. -/
def pyReplace (s old new : String) : String :=
  if old.data.isEmpty then String.mk (pyRepEmpty new.data s.data)
  else String.mk (pyRepFuel old.data new.data s.data.length s.data)

/-- Replacing a pattern that does not occur leaves the scanned list
unchanged (core lemma). -/
theorem pyRepFuel_of_not_contains (old new : List Char) :
    ∀ fuel s, containsList old s = false → pyRepFuel old new fuel s = s := by
  intro fuel
  induction fuel with
  | zero => intro s _; rfl
  | succ n ih =>
    intro s hc
    cases s with
    | nil => rfl
    | cons c cs =>
      simp only [containsList, Bool.or_eq_false_iff] at hc
      simp [pyRepFuel, hc.1, ih cs hc.2]

/-- Python `str.replace` with an absent pattern returns the string
unchanged. -/
theorem pyReplace_of_not_contains (s old new : String)
    (h : strContains s old = false) : pyReplace s old new = s := by
  unfold pyReplace
  have hne : old.data.isEmpty = false := by
    cases hdata : old.data with
    | nil =>
      exfalso
      unfold strContains at h
      rw [hdata] at h
      cases hs : s.data with
      | nil => rw [hs] at h; simp [containsList, listStartsWith] at h
      | cons c cs => rw [hs] at h; simp [containsList, listStartsWith] at h
    | cons c cs => simp
  rw [hne]
  simp only [Bool.false_eq_true, if_false]
  rw [pyRepFuel_of_not_contains old.data new.data s.data.length s.data h]

/-- Claim C5: a replace-all edit substitutes every occurrence of the old
string with the new string, left to right: on `"foo bar foo baz"`,
replacing all occurrences of `"foo"` with `"qux"` yields
`"qux bar qux baz"`, and occurrences of other substrings (`"bar"`,
`"baz"`) are unchanged. -/
theorem c5_replace_all_every_occurrence :
    pyReplace "foo bar foo baz" "foo" "qux" = "qux bar qux baz" ∧
    strContains (pyReplace "foo bar foo baz" "foo" "qux") "bar" = true ∧
    strContains (pyReplace "foo bar foo baz" "foo" "qux") "baz" = true := by
  refine ⟨by decide, by decide, by decide⟩

/-! ## More Python string primitives: readlines, basename, writelines -/

/-- Helper for `readlines`: accumulate the current line (reversed) and
split after every newline character, keeping the newline. -/
def splitLinesKeepAux (acc : List Char) : List Char → List String
  | [] => if acc.isEmpty then [] else [String.mk acc.reverse]
  | c :: cs =>
    if c == '\n' then String.mk (acc.reverse ++ ['\n']) :: splitLinesKeepAux [] cs
    else splitLinesKeepAux (c :: acc) cs

/-- Python `f.readlines()`: the content split into lines, each keeping
its trailing newline. -/
def readlines (s : String) : List String :=
  splitLinesKeepAux [] s.data

/-- Python `f.writelines(l)`: concatenation of the lines. -/
def writelines (l : List String) : String :=
  String.join l

/-- Python `os.path.basename`: the part of the path after the last
slash. -/
def basename (p : String) : String :=
  String.mk ((p.data.reverse.takeWhile (fun c => !(c == '/'))).reverse)

/-! ## cleanup_code.py -/

/-- Backup path from `backup_file` in `cleanup_code.py`: the original
file path followed by `".backup_"` and the timestamp
`datetime.now().strftime("%Y%m%d_%H%M%S")`, which this embedding passes
in as the parameter `ts`. -/
def backupName (filepath ts : String) : String :=
  filepath ++ ".backup_" ++ ts

/-- `backup_file` from `cleanup_code.py`: `shutil.copy2` the file to
`backupName filepath ts` and return the backup path.  `copy2` raises if
the source does not exist, modelled as `none`. -/
def backup_file (fs : FS) (filepath ts : String) :
    Option (FS × String × List FsEvent) :=
  match fs filepath with
  | none => none
  | some c =>
      some (setFile fs (backupName filepath ts) (some c),
            backupName filepath ts,
            [FsEvent.copy filepath (backupName filepath ts)])

/-- Loop body of `comment_out_section`: state is the accumulated output
lines together with the `in_section` flag. -/
def cosLine (startM endM : String) (acc : List String × Bool) (line : String) :
    List String × Bool :=
  if strContains line startM then
    (acc.1 ++ ["// SPRING_CLEANING: Disabled GPU mesh generation\n",
               "#if 0 // " ++ line], true)
  else if strContains line endM && acc.2 then
    (acc.1 ++ [line, "#endif // SPRING_CLEANING\n"], false)
  else
    (acc.1 ++ [line], acc.2)

/-- `comment_out_section` from `cleanup_code.py`: back the file up, read
its lines, wrap the section between the markers in `#if 0`/`#endif`, and
write the result back to the same path. -/
def comment_out_section (fs : FS) (filepath startM endM ts : String) :
    Option (FS × List FsEvent) :=
  match backup_file fs filepath ts with
  | none => none
  | some (fs1, _bak, ev1) =>
      match fs1 filepath with
      | none => none
      | some c =>
          let modified := (List.foldl (cosLine startM endM) ([], false) (readlines c)).1
          some (setFile fs1 filepath (some (writelines modified)),
                ev1 ++ [FsEvent.write filepath])

/-- The seven template paths hard-coded in `delete_unused_files`. -/
def unusedTemplates : List String :=
  ["shaders/src/templates/mesh_generator_compute_altitude.c",
   "shaders/src/templates/mesh_generator_compute_analyze.c",
   "shaders/src/templates/mesh_generator_compute_template.c",
   "shaders/src/templates/mesh_generator_compute_template_debug.c",
   "shaders/src/templates/mesh_generator_compute_template_fixed.c",
   "shaders/src/templates/mesh_generator_compute_template_octree.c",
   "shaders/src/templates/mesh_generator_compute_template_old.c"]

/-- The archive directory created by `delete_unused_files`. -/
def archiveDir : String := "shaders/archive/templates"

/-- `os.path.join(archive_dir, os.path.basename(filepath))`. -/
def archivePath (filepath : String) : String :=
  archiveDir ++ "/" ++ basename filepath

/-- One iteration of the loop in `delete_unused_files`: if the template
exists it is moved (not copied) to the archive; otherwise the script
prints `"Not found"` and continues with the next template. -/
def archiveStep (acc : FS × List FsEvent) (filepath : String) :
    FS × List FsEvent :=
  match acc.1 filepath with
  | some c =>
      (setFile (setFile acc.1 (archivePath filepath) (some c)) filepath none,
       acc.2 ++ [FsEvent.moved filepath (archivePath filepath)])
  | none => (acc.1, acc.2 ++ [FsEvent.skipped filepath])

/-- `delete_unused_files` from `cleanup_code.py`: archive each of the
seven templates in order, skipping (with a message) any that do not
exist. -/
def delete_unused_files (fs : FS) : FS × List FsEvent :=
  List.foldl archiveStep (fs, []) unusedTemplates

/-- `BackupStore.restore` as the spec describes it for a single file:
overwrite `target` with the backup's bytes. -/
def restoreFromBackup (fs : FS) (backupPath target : String) : FS :=
  setFile fs target (fs backupPath)

theorem backupName_ne_self (p ts : String) : backupName p ts ≠ p := by
  intro h
  have hlen := congrArg String.length h
  simp [backupName, String.length_append] at hlen
  have h8 : ".backup_".length = 8 := by decide
  omega

/-- Whether an event is a `shutil.copy2` (the only operation that
creates a backup copy). -/
def isCopyEv : FsEvent → Bool
  | FsEvent.copy _ _ => true
  | _ => false

theorem archive_events_no_copy (l : List String) :
    ∀ acc : FS × List FsEvent,
      acc.2.all (fun e => !isCopyEv e) = true →
      (List.foldl archiveStep acc l).2.all (fun e => !isCopyEv e) = true := by
  induction l with
  | nil => intro acc h; exact h
  | cons t rest ih =>
      intro acc h
      simp only [List.foldl_cons]
      apply ih
      unfold archiveStep
      cases hl : acc.1 t <;> simp_all [List.all_append, isCopyEv]

theorem archive_events_mono (l : List String) :
    ∀ (acc : FS × List FsEvent) (e : FsEvent),
      e ∈ acc.2 → e ∈ (List.foldl archiveStep acc l).2 := by
  induction l with
  | nil => intro acc e h; exact h
  | cons t rest ih =>
      intro acc e h
      simp only [List.foldl_cons]
      apply ih
      unfold archiveStep
      cases hl : acc.1 t <;> simp [h]

theorem archive_events_length (l : List String) :
    ∀ acc : FS × List FsEvent,
      (List.foldl archiveStep acc l).2.length = acc.2.length + l.length := by
  induction l with
  | nil => intro acc; simp
  | cons t rest ih =>
      intro acc
      simp only [List.foldl_cons]
      rw [ih]
      unfold archiveStep
      cases hl : acc.1 t <;> simp <;> omega

/-- Claim C3: for every successful edit by `comment_out_section`, the
backup taken before the edit is byte-identical to the pre-edit file
content, so restoring the file from the backup path yields exactly the
pre-edit content. -/
theorem c3_backup_roundtrip :
    ∀ (fs : FS) (filepath startM endM ts c : String) (fs2 : FS)
      (evs : List FsEvent),
      fs filepath = some c →
      comment_out_section fs filepath startM endM ts = some (fs2, evs) →
      fs2 (backupName filepath ts) = some c ∧
      restoreFromBackup fs2 (backupName filepath ts) filepath filepath = some c := by
  intro fs filepath startM endM ts c fs2 evs h hrun
  have hne : filepath ≠ backupName filepath ts :=
    fun he => backupName_ne_self filepath ts he.symm
  unfold comment_out_section backup_file at hrun
  rw [h] at hrun
  have h1 : setFile fs (backupName filepath ts) (some c) filepath = some c := by
    rw [setFile_other fs (backupName filepath ts) filepath (some c) hne]; exact h
  simp only [h1] at hrun
  have hfs2 : fs2 = setFile (setFile fs (backupName filepath ts) (some c)) filepath
      (some (writelines
        (List.foldl (cosLine startM endM) ([], false)
          (readlines c)).1)) := by
    cases hrun; rfl
  have hbak : fs2 (backupName filepath ts) = some c := by
    rw [hfs2, setFile_other _ _ _ _ (backupName_ne_self filepath ts),
        setFile_same]
  refine ⟨hbak, ?_⟩
  unfold restoreFromBackup
  rw [setFile_same, hbak]

/-- Witness for C3 at a concrete file. -/
def c3wfs : FS := setFile (fun _ => none) "f.txt" (some "a\nSTART\nb\nEND\nc\n")

theorem c3_backup_roundtrip_witness :
    c3wfs "f.txt" = some "a\nSTART\nb\nEND\nc\n" ∧
    (comment_out_section c3wfs "f.txt" "START" "END" "20240101_000000").map
        (fun r => r.1 (backupName "f.txt" "20240101_000000")) =
      some (some "a\nSTART\nb\nEND\nc\n") := by
  refine ⟨by decide, ?_⟩
  cases hc : comment_out_section c3wfs "f.txt" "START" "END" "20240101_000000" with
  | none =>
      have hs : (comment_out_section c3wfs "f.txt" "START" "END"
          "20240101_000000").isSome = true := by decide
      rw [hc] at hs
      simp at hs
  | some r =>
      obtain ⟨fs2, evs⟩ := r
      simp only [Option.map_some']
      exact congrArg some
        ((c3_backup_roundtrip c3wfs "f.txt" "START" "END" "20240101_000000"
          "a\nSTART\nb\nEND\nc\n" fs2 evs (by decide) hc).1)

/-- Claim C2 (amended): `comment_out_section` creates the backup copy
before it writes the mutated content (its event trace is exactly the
copy followed by the write), but the move performed by
`delete_unused_files` is never preceded by any backup: its trace contains
no copy at all. -/
theorem c2_amended_backup_ordering :
    (∀ (fs : FS) (filepath startM endM ts c : String) (fs2 : FS)
       (evs : List FsEvent),
       fs filepath = some c →
       comment_out_section fs filepath startM endM ts = some (fs2, evs) →
       evs = [FsEvent.copy filepath (backupName filepath ts),
              FsEvent.write filepath]) ∧
    (∀ fs : FS, (delete_unused_files fs).2.all (fun e => !isCopyEv e) = true) := by
  constructor
  · intro fs filepath startM endM ts c fs2 evs h hrun
    have hne : filepath ≠ backupName filepath ts :=
      fun he => backupName_ne_self filepath ts he.symm
    unfold comment_out_section backup_file at hrun
    rw [h] at hrun
    have h1 : setFile fs (backupName filepath ts) (some c) filepath = some c := by
      rw [setFile_other fs (backupName filepath ts) filepath (some c) hne]; exact h
    simp only [h1] at hrun
    cases hrun
    rfl
  · intro fs
    exact archive_events_no_copy unusedTemplates (fs, []) rfl

/-- Witness for C2 at a concrete file. -/
def c2wfs : FS := setFile (fun _ => none) "g.txt" (some "x\n")

theorem c2_amended_backup_ordering_witness :
    c2wfs "g.txt" = some "x\n" ∧
    (comment_out_section c2wfs "g.txt" "S" "E" "20240101_000000").map Prod.snd =
      some [FsEvent.copy "g.txt" (backupName "g.txt" "20240101_000000"),
            FsEvent.write "g.txt"] := by
  refine ⟨by decide, ?_⟩
  cases hc : comment_out_section c2wfs "g.txt" "S" "E" "20240101_000000" with
  | none =>
      have hs : (comment_out_section c2wfs "g.txt" "S" "E"
          "20240101_000000").isSome = true := by decide
      rw [hc] at hs
      simp at hs
  | some r =>
      obtain ⟨fs2, evs⟩ := r
      simp only [Option.map_some']
      exact congrArg some
        (c2_amended_backup_ordering.1 c2wfs "g.txt" "S" "E" "20240101_000000"
          "x\n" fs2 evs (by decide) hc)

/-- Counterexample to C2 as stated: with only the first template present,
`delete_unused_files` moves it into the archive and its event trace is a
move followed by six skips — no backup copy ever exists before (or
after) the move. -/
def c2cexFs : FS :=
  setFile (fun _ => none)
    "shaders/src/templates/mesh_generator_compute_altitude.c" (some "T")

theorem c2_cex_move_without_backup :
    (delete_unused_files c2cexFs).2 =
      [FsEvent.moved "shaders/src/templates/mesh_generator_compute_altitude.c"
         "shaders/archive/templates/mesh_generator_compute_altitude.c",
       FsEvent.skipped "shaders/src/templates/mesh_generator_compute_analyze.c",
       FsEvent.skipped "shaders/src/templates/mesh_generator_compute_template.c",
       FsEvent.skipped "shaders/src/templates/mesh_generator_compute_template_debug.c",
       FsEvent.skipped "shaders/src/templates/mesh_generator_compute_template_fixed.c",
       FsEvent.skipped "shaders/src/templates/mesh_generator_compute_template_octree.c",
       FsEvent.skipped "shaders/src/templates/mesh_generator_compute_template_old.c"] := by
  decide

/-- Claim C6 (counterexample to the claim as stated): the backup filename
built by `backup_file` for `"a.txt"` is
`"a.txt.backup_20240101_000000"` — it does not end in `".bak"`, carries
a timestamp rather than an 8-hex random suffix, and extends the original
path (the backup sits beside the original file, not under a backup
directory). -/
theorem c6_cex_backup_name_not_bak :
    backupName "a.txt" "20240101_000000" = "a.txt.backup_20240101_000000" ∧
    strEndsWith (backupName "a.txt" "20240101_000000") ".bak" = false ∧
    strStartsWith (backupName "a.txt" "20240101_000000") "a.txt" = true := by
  refine ⟨by decide, by decide, by decide⟩

/-- Claim C6 (amended): `backup_file` names the backup
`<path>.backup_<timestamp>`, places it beside the original (the name
extends the original path), copies the original content into it, and
leaves the original file untouched. -/
theorem c6_amended_backup_naming :
    ∀ (fs : FS) (p ts c : String),
      fs p = some c →
      (backup_file fs p ts).map (fun r => r.2.1) =
        some (p ++ ".backup_" ++ ts) ∧
      (backup_file fs p ts).map (fun r => r.1 (p ++ ".backup_" ++ ts)) =
        some (some c) ∧
      (backup_file fs p ts).map (fun r => r.1 p) = some (some c) := by
  intro fs p ts c h
  have hbn : backupName p ts = p ++ ".backup_" ++ ts := rfl
  unfold backup_file
  rw [h]
  refine ⟨rfl, ?_, ?_⟩
  · simp only [Option.map_some']
    rw [← hbn, setFile_same]
  · simp only [Option.map_some']
    rw [setFile_other fs (backupName p ts) p (some c)
          (fun he => backupName_ne_self p ts he.symm), h]

theorem c6_amended_backup_naming_witness :
    c2cexFs "shaders/src/templates/mesh_generator_compute_altitude.c" = some "T" ∧
    (backup_file c2cexFs "shaders/src/templates/mesh_generator_compute_altitude.c"
        "20240101_000000").map (fun r => r.2.1) =
      some ("shaders/src/templates/mesh_generator_compute_altitude.c" ++
            ".backup_" ++ "20240101_000000") :=
  ⟨by decide,
   (c6_amended_backup_naming c2cexFs
     "shaders/src/templates/mesh_generator_compute_altitude.c"
     "20240101_000000" "T" (by decide)).1⟩

/-- Claim C7 (amended): when a template's source path does not exist,
`delete_unused_files` records a `"Not found"` skip for it and still
processes every one of the seven templates — no failure is reported and
the loop continues. -/
theorem c7_amended_missing_source_skipped :
    ∀ fs : FS,
      fs "shaders/src/templates/mesh_generator_compute_altitude.c" = none →
      FsEvent.skipped "shaders/src/templates/mesh_generator_compute_altitude.c" ∈
        (delete_unused_files fs).2 ∧
      (delete_unused_files fs).2.length = 7 := by
  intro fs h
  have hstep : archiveStep (fs, [])
      "shaders/src/templates/mesh_generator_compute_altitude.c" =
      (fs, [FsEvent.skipped
        "shaders/src/templates/mesh_generator_compute_altitude.c"]) := by
    simp [archiveStep, h]
  have hform : delete_unused_files fs =
      List.foldl archiveStep
        (fs, [FsEvent.skipped
          "shaders/src/templates/mesh_generator_compute_altitude.c"])
        ["shaders/src/templates/mesh_generator_compute_analyze.c",
         "shaders/src/templates/mesh_generator_compute_template.c",
         "shaders/src/templates/mesh_generator_compute_template_debug.c",
         "shaders/src/templates/mesh_generator_compute_template_fixed.c",
         "shaders/src/templates/mesh_generator_compute_template_octree.c",
         "shaders/src/templates/mesh_generator_compute_template_old.c"] := by
    unfold delete_unused_files unusedTemplates
    rw [List.foldl_cons, hstep]
  constructor
  · rw [hform]
    exact archive_events_mono _ _ _ (by simp)
  · rw [hform, archive_events_length]
    rfl

theorem c7_amended_missing_source_skipped_witness :
    ((fun _ => none : FS)
        "shaders/src/templates/mesh_generator_compute_altitude.c" = none) ∧
    (FsEvent.skipped "shaders/src/templates/mesh_generator_compute_altitude.c" ∈
        (delete_unused_files (fun _ => none)).2 ∧
      (delete_unused_files (fun _ => none)).2.length = 7) :=
  ⟨rfl, c7_amended_missing_source_skipped (fun _ => none) rfl⟩

/-- Counterexample to C7 as stated: with the first template missing and
the second present, `delete_unused_files` does not fail — it records a
skip for the missing source and then continues, archiving the second
template. -/
def c7cexFs : FS :=
  setFile (fun _ => none)
    "shaders/src/templates/mesh_generator_compute_analyze.c" (some "T")

theorem c7_cex_skip_and_continue :
    (delete_unused_files c7cexFs).2 =
      [FsEvent.skipped "shaders/src/templates/mesh_generator_compute_altitude.c",
       FsEvent.moved "shaders/src/templates/mesh_generator_compute_analyze.c"
         "shaders/archive/templates/mesh_generator_compute_analyze.c",
       FsEvent.skipped "shaders/src/templates/mesh_generator_compute_template.c",
       FsEvent.skipped "shaders/src/templates/mesh_generator_compute_template_debug.c",
       FsEvent.skipped "shaders/src/templates/mesh_generator_compute_template_fixed.c",
       FsEvent.skipped "shaders/src/templates/mesh_generator_compute_template_octree.c",
       FsEvent.skipped "shaders/src/templates/mesh_generator_compute_template_old.c"] ∧
    (delete_unused_files c7cexFs).1
      "shaders/archive/templates/mesh_generator_compute_analyze.c" = some "T" := by
  refine ⟨by decide, by decide⟩

/-! ## fix_terrain.py

The script reads `src/core/octree.cpp` once, chains ten
`content.replace(old, new)` calls, and writes the result back
unconditionally.  Curly braces inside the replacement literals are
written with `\x7b` escapes; the content is byte-for-byte that of the
source. -/

def old_terrain : String :=
  "    // Layer 1: Major continents (very low frequency)\n" ++
  "    continents += sin((longitude + seedOffset) * 1.5f) * 0.3f;\n" ++
  "    continents += cos((latitude * 2.0f + seedOffset * 2.0f) * 1.2f) * 0.3f;\n" ++
  "    continents += sin((longitude * 0.8f - latitude * 1.1f + seedOffset * 3.0f)) * 0.2f;\n" ++
  "    \n" ++
  "    // Layer 2: Regional variations (medium frequency)\n" ++
  "    float regional = 0.0f;\n" ++
  "    regional += sin((longitude * 3.2f + seedOffset * 4.0f)) * cos(latitude * 2.8f) * 0.15f;\n" ++
  "    regional += cos((longitude * 4.1f - seedOffset * 2.0f)) * sin(latitude * 3.5f) * 0.15f;\n" ++
  "    \n" ++
  "    // Layer 3: Mountain ridges using absolute value for ridge effect\n" ++
  "    float ridges = 0.0f;\n" ++
  "    float ridgeX = sin(longitude * 5.0f + latitude * 3.0f + seedOffset * 5.0f);\n" ++
  "    float ridgeY = cos(longitude * 4.0f - latitude * 6.0f + seedOffset * 6.0f);\n" ++
  "    ridges = (1.0f - abs(ridgeX)) * 0.1f + (1.0f - abs(ridgeY)) * 0.1f;\n" ++
  "    \n" ++
  "    // Layer 4: Small-scale turbulence\n" ++
  "    float detail = 0.0f;\n" ++
  "    detail += sin(longitude * 12.0f + latitude * 8.0f + seedOffset * 7.0f) * 0.05f;\n" ++
  "    detail += cos(longitude * 15.0f - latitude * 11.0f + seedOffset * 8.0f) * 0.05f;"

def new_terrain : String :=
  "    // Layer 1: Major continents (very low frequency, MUCH larger amplitude)\n" ++
  "    continents += sin((longitude + seedOffset) * 1.5f) * 0.7f;\n" ++
  "    continents += cos((latitude * 2.0f + seedOffset * 2.0f) * 1.2f) * 0.6f;\n" ++
  "    continents += sin((longitude * 0.8f - latitude * 1.1f + seedOffset * 3.0f)) * 0.5f;\n" ++
  "    \n" ++
  "    // Layer 2: Regional variations (medium frequency)\n" ++
  "    float regional = 0.0f;\n" ++
  "    regional += sin((longitude * 3.2f + seedOffset * 4.0f)) * cos(latitude * 2.8f) * 0.35f;\n" ++
  "    regional += cos((longitude * 4.1f - seedOffset * 2.0f)) * sin(latitude * 3.5f) * 0.3f;\n" ++
  "    \n" ++
  "    // Layer 3: Mountain ridges using absolute value for ridge effect\n" ++
  "    float ridges = 0.0f;\n" ++
  "    float ridgeX = sin(longitude * 5.0f + latitude * 3.0f + seedOffset * 5.0f);\n" ++
  "    float ridgeY = cos(longitude * 4.0f - latitude * 6.0f + seedOffset * 6.0f);\n" ++
  "    ridges = (1.0f - abs(ridgeX)) * 0.25f + (1.0f - abs(ridgeY)) * 0.25f;\n" ++
  "    \n" ++
  "    // Layer 4: Small-scale turbulence\n" ++
  "    float detail = 0.0f;\n" ++
  "    detail += sin(longitude * 12.0f + latitude * 8.0f + seedOffset * 7.0f) * 0.15f;\n" ++
  "    detail += cos(longitude * 15.0f - latitude * 11.0f + seedOffset * 8.0f) * 0.12f;"

def old_normalize : String :=
  "    // Normalize to 0-1 range with bias toward ocean\n" ++
  "    terrain = (terrain + 1.0f) * 0.5f; // Convert from -1..1 to 0..1"

def new_normalize : String :=
  "    // Normalize to 0-1 range\n" ++
  "    // The range is now roughly -3.5 to +3.5, so we scale appropriately\n" ++
  "    terrain = (terrain + 3.5f) / 7.0f; // Convert from -3.5..3.5 to 0..1"

def old_variation : String :=
  "    // Add some variation based on 3D position for less predictable patterns\n" ++
  "    float variation = sin(sphereNormal.x * 7.0f) * cos(sphereNormal.y * 9.0f) * sin(sphereNormal.z * 8.0f) * 0.08f;\n" ++
  "    terrain += variation;\n" ++
  "    \n" ++
  "    return glm::clamp(terrain, 0.0f, 1.0f);"

def new_variation : String :=
  "    // Add some variation based on 3D position for less predictable patterns\n" ++
  "    float variation = sin(sphereNormal.x * 7.0f) * cos(sphereNormal.y * 9.0f) * sin(sphereNormal.z * 8.0f) * 0.12f;\n" ++
  "    terrain += variation;\n" ++
  "    \n" ++
  "    // Apply a power curve to create more ocean and sharper coastlines\n" ++
  "    terrain = pow(glm::clamp(terrain, 0.0f, 1.0f), 0.65f);\n" ++
  "    \n" ++
  "    return glm::clamp(terrain, 0.0f, 1.0f);"

def old_remap : String :=
  "                // Apply ocean/land ratio bias (40% land, 60% ocean)\n" ++
  "                // Remap noise value to get desired distribution\n" ++
  "                continentValue = continentValue * 0.7f + 0.15f; // Range 0.15-0.85"

def new_remap : String :=
  "                // Don\x27t remap - let the terrain function output determine ocean/land\n" ++
  "                // The sampleImprovedTerrain already includes ocean bias via power curve\n" ++
  "                // continentValue is now in range 0-1 with natural distribution"

def old_thresholds : String :=
  "                // 40% land, 60% ocean based on actual continent value range (0.29-0.55)\n" ++
  "                // Use mixed materials for more realistic boundaries\n" ++
  "                if (continentValue > 0.5f) \x7b"

def new_thresholds : String :=
  "                // Use natural distribution from terrain function\n" ++
  "                // Ocean below 0.4, land above 0.4 (roughly 60/40 split)\n" ++
  "                if (continentValue > 0.7f) \x7b"

/-- The path the script hard-codes. -/
def octreePath : String := "src/core/octree.cpp"

/-- The ten chained `content.replace` calls of `fix_terrain.py`, in
program order. -/
def fixTerrainContent (c : String) : String :=
  let s1 := pyReplace c old_terrain new_terrain
  let s2 := pyReplace s1 old_normalize new_normalize
  let s3 := pyReplace s2 old_variation new_variation
  let s4 := pyReplace s3 old_remap new_remap
  let s5 := pyReplace s4 old_thresholds new_thresholds
  let s6 := pyReplace s5 "else if (continentValue > 0.45f) \x7b"
                         "else if (continentValue > 0.6f) \x7b"
  let s7 := pyReplace s6 "else if (continentValue > 0.40f) \x7b"
                         "else if (continentValue > 0.5f) \x7b"
  let s8 := pyReplace s7 "else if (continentValue > 0.37f) \x7b"
                         "else if (continentValue > 0.45f) \x7b"
  let s9 := pyReplace s8 "else if (continentValue > 0.35f) \x7b"
                         "else if (continentValue > 0.42f) \x7b"
  pyReplace s9 "else if (continentValue > 0.33f) \x7b"
               "else if (continentValue > 0.4f) \x7b"

/-- `fix_terrain.py` end to end: read `src/core/octree.cpp` (the open
raises if it is missing, modelled as `none`), chain the replacements, and
write the result back unconditionally — there is no failure branch for an
absent pattern. -/
def run_fix_terrain (fs : FS) : Option (FS × List FsEvent) :=
  match fs octreePath with
  | none => none
  | some c =>
      some (setFile fs octreePath (some (fixTerrainContent c)),
            [FsEvent.write octreePath])

/-- Claim C4 (amended): when an edit request's old string does not occur
in the current content, `str.replace` returns the content unchanged and
`fix_terrain.py` reports no failure — it still writes the (possibly
unchanged) content back to the file. -/
theorem c4_amended_absent_pattern_silent :
    (∀ s old new : String, strContains s old = false → pyReplace s old new = s) ∧
    (∀ (fs : FS) (c : String), fs octreePath = some c →
      (run_fix_terrain fs).map Prod.snd = some [FsEvent.write octreePath] ∧
      (run_fix_terrain fs).map (fun r => r.1 octreePath) =
        some (some (fixTerrainContent c))) := by
  constructor
  · exact pyReplace_of_not_contains
  · intro fs c h
    unfold run_fix_terrain
    rw [h]
    exact ⟨rfl, by simp only [Option.map_some']; rw [setFile_same]⟩

def c4wfs : FS := setFile (fun _ => none) octreePath (some "hello")

theorem c4_amended_absent_pattern_silent_witness :
    c4wfs octreePath = some "hello" ∧
    ((run_fix_terrain c4wfs).map Prod.snd = some [FsEvent.write octreePath] ∧
     (run_fix_terrain c4wfs).map (fun r => r.1 octreePath) =
       some (some (fixTerrainContent "hello"))) ∧
    (strContains "hello" "foo" = false ∧ pyReplace "hello" "foo" "x" = "hello") :=
  ⟨by decide,
   c4_amended_absent_pattern_silent.2 c4wfs "hello" (by decide),
   by decide,
   c4_amended_absent_pattern_silent.1 "hello" "foo" "x" (by decide)⟩

/-- Counterexample to C4 as stated: on a file whose content contains none
of the old strings, the run does not fail with PatternNotFound — it
succeeds, performs a write, and the content is silently unchanged. -/
def c4cexFs : FS := setFile (fun _ => none) octreePath (some "hello world")

theorem c4_cex_no_failure_still_writes :
    (run_fix_terrain c4cexFs).isSome = true ∧
    (run_fix_terrain c4cexFs).map Prod.snd = some [FsEvent.write octreePath] ∧
    (run_fix_terrain c4cexFs).map (fun r => r.1 octreePath) =
      some (some "hello world") ∧
    fixTerrainContent "hello world" = "hello world" := by
  refine ⟨by decide, by decide, by decide, by decide⟩

/-! ## clean_cmake.py -/

/-- Python `str.strip()` whitespace set. -/
def pyWhitespace (c : Char) : Bool :=
  c == ' ' || c == '\t' || c == '\n' || c == '\r' || c == '\x0b' || c == '\x0c'

/-- Python `s.strip()`. -/
def pyStrip (s : String) : String :=
  String.mk (((s.data.dropWhile pyWhitespace).reverse.dropWhile pyWhitespace).reverse)

/-- The ten test names `clean_cmake.py` removes. -/
def brokenTests : List String :=
  ["test_voxel_positions",
   "test_rendering_verification",
   "test_full_pipeline",
   "test_planet_scale_materials",
   "test_material_isolation",
   "test_material_stages",
   "test_material_method",
   "test_grid_derivation",
   "test_planet_visibility",
   "test_voxel_data_flow"]

/-- A line that starts a broken test block:
`add_executable(<test>` or `# REMOVED: add_executable(<test>` occurs in
it for one of the broken tests. -/
def lineHasBrokenExec (line : String) : Bool :=
  brokenTests.any fun t =>
    strContains line ("add_executable(" ++ t) ||
    strContains line ("# REMOVED: add_executable(" ++ t)

/-- A line beginning a fresh (non-broken) `add_executable` block. -/
def lineIsNewExec (line : String) : Bool :=
  strContains line "add_executable(" &&
  !(brokenTests.any fun t => strContains line t)

/-- A line with an orphaned target command for a broken test. -/
def lineHasOrphan (line : String) : Bool :=
  brokenTests.any fun t =>
    strContains line ("target_include_directories(" ++ t) ||
    strContains line ("target_link_libraries(" ++ t) ||
    strContains line ("set_target_properties(" ++ t)

/-- The inner scan of the broken-block branch: advance `j` until the next
non-broken `add_executable` line (or past the last line).  Fuel
`lines.length` bounds the iteration count. -/
def findNextExec (lines : List String) : Nat → Nat → Nat
  | 0, j => j
  | fuel + 1, j =>
    if j < lines.length then
      if lineIsNewExec (lines.getD j "") then j
      else if j == lines.length - 1 then j + 1
      else findNextExec lines fuel (j + 1)
    else j

/-- The inner scan of the orphaned-command branch: advance `j` while the
line is neither a comment nor blank, stopping one past a `)` or blank
line.  When the very first line already starts with `#` the Python loop
makes no progress (`j` stays `i`). -/
def orphanSkipEnd (lines : List String) : Nat → Nat → Nat
  | 0, j => j
  | fuel + 1, j =>
    if j < lines.length && !(strStartsWith (pyStrip (lines.getD j "")) "#") &&
        !(pyStrip (lines.getD j "") == "") then
      if (j + 1) < lines.length &&
          (pyStrip (lines.getD (j + 1) "") == ")" ||
           pyStrip (lines.getD (j + 1) "") == "") then
        j + 2
      else orphanSkipEnd lines fuel (j + 1)
    else j

/-- The main `while i < len(lines)` loop of `clean_cmake.py`.  Each
iteration consumes one unit of fuel; the orphaned-command branch can set
`i = j` with `j = i` (a comment line matching an orphan pattern), in
which case the script loops forever — running out of fuel models that as
`none`, and no write happens. -/
def cleanLoop (lines : List String) : Nat → Nat → List String → Option (List String)
  | 0, i, acc => if i < lines.length then none else some acc
  | fuel + 1, i, acc =>
    if i < lines.length then
      if lineHasBrokenExec (lines.getD i "") then
        cleanLoop lines fuel (findNextExec lines lines.length (i + 1)) acc
      else if lineHasOrphan (lines.getD i "") then
        cleanLoop lines fuel (orphanSkipEnd lines (lines.length + 1) i) acc
      else
        cleanLoop lines fuel (i + 1) (acc ++ [lines.getD i ""])
    else some acc

/-- `clean_cmake.py` end to end: read `CMakeLists.txt` (raises when
missing, modelled `none`), filter the lines, and write the result only to
the separate file `CMakeLists_clean.txt`. -/
def clean_cmake (fs : FS) : Option (FS × List FsEvent) :=
  match fs "CMakeLists.txt" with
  | none => none
  | some c =>
      match cleanLoop (readlines c) ((readlines c).length + 1) 0 [] with
      | none => none
      | some out =>
          some (setFile fs "CMakeLists_clean.txt" (some (writelines out)),
                [FsEvent.write "CMakeLists_clean.txt"])

/-- Claim C9: `clean_cmake.py` never writes to its input file — after any
run, `CMakeLists.txt` holds exactly the content it started with, and the
only path whose content can differ is `CMakeLists_clean.txt`. -/
theorem c9_input_never_written :
    ∀ (fs : FS) (r : FS × List FsEvent),
      clean_cmake fs = some r →
      r.1 "CMakeLists.txt" = fs "CMakeLists.txt" ∧
      ∀ p : String, p ≠ "CMakeLists_clean.txt" → r.1 p = fs p := by
  intro fs r h
  unfold clean_cmake at h
  split at h
  · cases h
  · split at h
    · cases h
    · cases h
      dsimp only
      refine ⟨?_, ?_⟩
      · apply setFile_other
        decide
      · intro p hp
        apply setFile_other
        exact hp

def c9wfs : FS :=
  setFile (fun _ => none) "CMakeLists.txt" (some "add_executable(app main.cpp)\n")

theorem c9_input_never_written_witness :
    (clean_cmake c9wfs).isSome = true ∧
    (clean_cmake c9wfs).map (fun r => r.1 "CMakeLists.txt") =
      some (c9wfs "CMakeLists.txt") := by
  refine ⟨by decide, ?_⟩
  cases hc : clean_cmake c9wfs with
  | none =>
      have hs : (clean_cmake c9wfs).isSome = true := by decide
      rw [hc] at hs
      simp at hs
  | some r =>
      simp only [Option.map_some']
      exact congrArg some ((c9_input_never_written c9wfs r hc).1)

/-! ## scripts/analysis/analyze_mesh.py and scripts/analyze_tests.py -/

open Classical in
/-- Python float division: dividing by zero raises `ZeroDivisionError`,
modelled as `none`. -/
noncomputable def pyDivR (a b : ℝ) : Option ℝ :=
  if b = 0 then none else some (a / b)

/-- `math.atan2(y, x)` as the argument of the complex number `x + y*i`. -/
noncomputable def atan2 (y x : ℝ) : ℝ := Complex.arg ⟨x, y⟩

/-- `seed * 0.0123` with the hard-coded `seed = 42`. -/
noncomputable def seedOffset : ℝ := 42 * 0.0123

open Classical in
/-- The body of `test_terrain` after normalization: the four noise
layers, polar bias, asymmetry, normalization to 0..1, variation, clamp
and the `** 1.8` power curve, exactly as in `debug_terrain.py`. -/
noncomputable def terrainBody (nx ny nz : ℝ) : ℝ :=
  let longitude := atan2 nx nz
  let latitude := Real.arcsin ny
  let continents :=
    Real.sin ((longitude + seedOffset) * 1.5) * 0.7 +
    Real.cos ((latitude * 2.0 + seedOffset * 2.0) * 1.2) * 0.6 +
    Real.sin (longitude * 0.8 - latitude * 1.1 + seedOffset * 3.0) * 0.5
  let regional :=
    Real.sin (longitude * 3.2 + seedOffset * 4.0) * Real.cos (latitude * 2.8) * 0.35 +
    Real.cos (longitude * 4.1 - seedOffset * 2.0) * Real.sin (latitude * 3.5) * 0.3
  let ridgeX := Real.sin (longitude * 5.0 + latitude * 3.0 + seedOffset * 5.0)
  let ridgeY := Real.cos (longitude * 4.0 - latitude * 6.0 + seedOffset * 6.0)
  let ridges := (1.0 - |ridgeX|) * 0.25 + (1.0 - |ridgeY|) * 0.25
  let detail :=
    Real.sin (longitude * 12.0 + latitude * 8.0 + seedOffset * 7.0) * 0.15 +
    Real.cos (longitude * 15.0 - latitude * 11.0 + seedOffset * 8.0) * 0.12
  let terrain0 := continents + regional + ridges + detail
  let polarBias := |ny|
  let terrain1 :=
    if polarBias > 0.8 then terrain0 + (polarBias - 0.8) * 1.5 else terrain0
  let terrain2 := terrain1 + Real.sin (nx * 2.1 + nz * 1.7 + seedOffset * 9.0) * 0.1
  let terrain3 := (terrain2 + 3.5) / 7.0
  let terrain4 :=
    terrain3 + Real.sin (nx * 7.0) * Real.cos (ny * 9.0) * Real.sin (nz * 8.0) * 0.12
  let terrain5 := max 0 (min 1 terrain4)
  Real.rpow terrain5 1.8

open Classical in
/-- `test_terrain` from `debug_terrain.py`: compute the length, return 0
when it is zero, otherwise divide each coordinate by the length and feed
the normalized vector to the noise layers.  A division by zero would
surface as `none`. -/
noncomputable def test_terrain (x y z : ℝ) : Option ℝ :=
  if Real.sqrt (x * x + y * y + z * z) = 0 then some 0
  else
    match pyDivR x (Real.sqrt (x * x + y * y + z * z)),
          pyDivR y (Real.sqrt (x * x + y * y + z * z)),
          pyDivR z (Real.sqrt (x * x + y * y + z * z)) with
    | some nx, some ny, some nz => some (terrainBody nx ny nz)
    | _, _, _ => none

/-- Claim C10: `test_terrain` divides by the vector length only when that
length is nonzero; on the zero vector it returns 0 without performing the
division, and the division-by-zero error branch is unreachable for every
input. -/
theorem c10_zero_length_guard :
    test_terrain 0 0 0 = some 0 ∧ ∀ x y z : ℝ, test_terrain x y z ≠ none := by
  constructor
  · have h0 : Real.sqrt ((0 : ℝ) * 0 + 0 * 0 + 0 * 0) = 0 := by norm_num
    unfold test_terrain
    rw [if_pos h0]
  · intro x y z
    unfold test_terrain
    by_cases h : Real.sqrt (x * x + y * y + z * z) = 0
    · rw [if_pos h]
      simp
    · rw [if_neg h]
      simp only [pyDivR, if_neg h]
      simp

theorem c10_zero_length_guard_witness : test_terrain 1 0 0 ≠ none :=
  c10_zero_length_guard.2 1 0 0

/-! ## The transactional editing engine (TransactionManager scope)

Modelled from the spec: the engine (BackupStore, EditEngine,
RelocationEngine, TransactionManager — spec §§4.1, 4.2, 4.6, 4.7) is not
present under `src/`; the definitions below follow the spec's words.  A
mutating call first asks BackupStore for a backup of the touched file,
then mutates and appends a Change (target path, backup reference,
operation kind) to the active scope's change log.  BackupStore gives
every backup a collision-free name (spec §3: "Backup filenames are unique
within a run"), modelled as a store indexed by a fresh counter.  On an
error propagating out of the scope, every recorded Change is undone in
reverse chronological order: Edit/Replace by copying the backup over the
target path, Move by moving the backup back to the original target path
(spec §4.7). -/

/-- Modelled from the spec: `operationKind` of a Change (spec §3). -/
inductive OpKind
  | edit
  | replace
  | move
deriving DecidableEq

/-- Modelled from the spec: a Change records one applied mutation —
target path, backup reference, operation kind (spec §3). -/
structure Change where
  targetPath : String
  backupId : Nat
  kind : OpKind
deriving DecidableEq

/-- Modelled from the spec: engine state — the project files, the
BackupStore's contents (indexed by the unique backup names, modelled as a
counter), and the next fresh backup name. -/
structure EngineState where
  files : FS
  backups : Nat → Option String
  nextId : Nat

/-- Write slot `i` of the backup store. -/
def setBackup (b : Nat → Option String) (i : Nat) (v : Option String) :
    Nat → Option String :=
  fun j => if j = i then v else b j

/-- Modelled from the spec: the mutating calls a transaction scope can
group — an EditEngine edit persisting new content to a path, and a
RelocationEngine move (spec §§4.2, 4.6). -/
inductive MutOp
  | edit (path newContent : String)
  | move (src dst : String)
deriving DecidableEq

/-- Modelled from the spec: perform one mutating call.  The touched file
must exist (otherwise the operation fails before mutating anything); a
backup of it is created first, then the mutation is applied, and the
Change referencing the backup is returned (spec §2: "Every mutating call
first asks BackupStore for a backup, then matches/replaces content, then
writes the result and records a change entry"). -/
def applyMut (s : EngineState) : MutOp → Option (EngineState × Change)
  | MutOp.edit p nc =>
      match s.files p with
      | none => none
      | some c =>
          some ({ files := setFile s.files p (some nc),
                  backups := setBackup s.backups s.nextId (some c),
                  nextId := s.nextId + 1 },
                ⟨p, s.nextId, OpKind.edit⟩)
  | MutOp.move f d =>
      match s.files f with
      | none => none
      | some c =>
          some ({ files := setFile (setFile s.files d (some c)) f none,
                  backups := setBackup s.backups s.nextId (some c),
                  nextId := s.nextId + 1 },
                ⟨f, s.nextId, OpKind.move⟩)

/-- Modelled from the spec: run the mutations of a scope in order,
recording their Changes in chronological order (spec §4.7). -/
def runMuts (s : EngineState) : List MutOp → Option (EngineState × List Change)
  | [] => some (s, [])
  | op :: rest =>
      match applyMut s op with
      | none => none
      | some (s1, ch) =>
          match runMuts s1 rest with
          | none => none
          | some (s2, log) => some (s2, ch :: log)

/-- Modelled from the spec: undo one Change.  Edit/Replace changes are
restored by copying the backup over the target path; Move changes are
undone by moving the backup path back to the original target path.
Errors during rollback of an individual Change are swallowed (spec
§4.7). -/
def undoChange (s : EngineState) (ch : Change) : EngineState :=
  match s.backups ch.backupId with
  | none => s
  | some b =>
      match ch.kind with
      | OpKind.move =>
          { s with files := setFile s.files ch.targetPath (some b),
                   backups := setBackup s.backups ch.backupId none }
      | _ => { s with files := setFile s.files ch.targetPath (some b) }

/-- Modelled from the spec: on an error propagating out of the scope,
every recorded Change is undone in reverse chronological order (spec
§4.7). -/
def rollbackScope (s : EngineState) (log : List Change) : EngineState :=
  log.reverse.foldl undoChange s

/-- The destination paths of the move operations in a scope. -/
def moveDsts : List MutOp → List String
  | [] => []
  | MutOp.edit _ _ :: rest => moveDsts rest
  | MutOp.move _ d :: rest => d :: moveDsts rest

/-- The engine at scope entry: project files plus an empty BackupStore. -/
def initState (fs : FS) : EngineState := ⟨fs, fun _ => none, 0⟩

/-- The BackupStore holds nothing at or above the next fresh name. -/
def backupsFresh (s : EngineState) : Prop :=
  ∀ i : Nat, s.nextId ≤ i → s.backups i = none

theorem setBackup_same (b : Nat → Option String) (i : Nat) (v : Option String) :
    setBackup b i v i = v := by
  simp [setBackup]

theorem setBackup_other (b : Nat → Option String) (i j : Nat)
    (v : Option String) (h : j ≠ i) : setBackup b i v j = b j := by
  simp [setBackup, h]

theorem rollbackScope_cons (s : EngineState) (ch : Change) (log : List Change) :
    rollbackScope s (ch :: log) = undoChange (rollbackScope s log) ch := by
  unfold rollbackScope
  rw [List.reverse_cons, List.foldl_append]
  rfl

/-- Key invariant for rollback: running the remaining operations of a
scope from any state with a fresh BackupStore and then rolling the
recorded log back in reverse order restores every file except the move
destinations, and leaves every backup slot older than the state's
counter untouched. -/
theorem rollback_restores (ops : List MutOp) :
    ∀ (s0 s1 : EngineState) (log : List Change),
      backupsFresh s0 →
      runMuts s0 ops = some (s1, log) →
      (∀ p : String, p ∉ moveDsts ops →
        (rollbackScope s1 log).files p = s0.files p) ∧
      (∀ i : Nat, i < s0.nextId →
        (rollbackScope s1 log).backups i = s0.backups i) := by
  induction ops with
  | nil =>
      intro s0 s1 log _ hrun
      cases hrun
      exact ⟨fun p _ => rfl, fun i _ => rfl⟩
  | cons op rest ih =>
      intro s0 s1 log hfresh hrun
      unfold runMuts at hrun
      cases hap : applyMut s0 op with
      | none => rw [hap] at hrun; cases hrun
      | some pair =>
          obtain ⟨sA, ch⟩ := pair
          rw [hap] at hrun
          dsimp only at hrun
          cases hrest : runMuts sA rest with
          | none => rw [hrest] at hrun; cases hrun
          | some pair2 =>
              obtain ⟨s2, logR⟩ := pair2
              rw [hrest] at hrun
              dsimp only at hrun
              cases hrun
              cases op with
              | edit p nc =>
                  unfold applyMut at hap
                  dsimp only at hap
                  cases hc : s0.files p with
                  | none => rw [hc] at hap; cases hap
                  | some c =>
                      rw [hc] at hap
                      dsimp only at hap
                      cases hap
                      have hfreshA : backupsFresh
                          ⟨setFile s0.files p (some nc),
                           setBackup s0.backups s0.nextId (some c),
                           s0.nextId + 1⟩ := by
                        intro i hi
                        have hine : i ≠ s0.nextId := by
                          simp only [] at hi
                          omega
                        simp only [setBackup_other _ _ _ _ hine]
                        apply hfresh
                        simp only [] at hi
                        omega
                      obtain ⟨ihf, ihb⟩ := ih _ s1 logR hfreshA hrest
                      have hbak : (rollbackScope s1 logR).backups s0.nextId =
                          some c := by
                        have := ihb s0.nextId (by simp only []; omega)
                        rw [this]
                        exact setBackup_same _ _ _
                      constructor
                      · intro q hq
                        have hq' : q ∉ moveDsts rest := by
                          simpa [moveDsts] using hq
                        rw [rollbackScope_cons]
                        unfold undoChange
                        dsimp only
                        rw [hbak]
                        dsimp only
                        by_cases hqp : q = p
                        · subst hqp
                          rw [setFile_same]
                          exact hc.symm
                        · rw [setFile_other _ _ _ _ hqp]
                          rw [ihf q hq']
                          exact setFile_other _ _ _ _ hqp
                      · intro i hi
                        rw [rollbackScope_cons]
                        unfold undoChange
                        dsimp only
                        rw [hbak]
                        dsimp only
                        have := ihb i (by simp only []; omega)
                        rw [this]
                        have hine : i ≠ s0.nextId := by omega
                        exact setBackup_other _ _ _ _ hine
              | move f d =>
                  unfold applyMut at hap
                  dsimp only at hap
                  cases hc : s0.files f with
                  | none => rw [hc] at hap; cases hap
                  | some c =>
                      rw [hc] at hap
                      dsimp only at hap
                      cases hap
                      have hfreshA : backupsFresh
                          ⟨setFile (setFile s0.files d (some c)) f none,
                           setBackup s0.backups s0.nextId (some c),
                           s0.nextId + 1⟩ := by
                        intro i hi
                        have hine : i ≠ s0.nextId := by
                          simp only [] at hi
                          omega
                        simp only [setBackup_other _ _ _ _ hine]
                        apply hfresh
                        simp only [] at hi
                        omega
                      obtain ⟨ihf, ihb⟩ := ih _ s1 logR hfreshA hrest
                      have hbak : (rollbackScope s1 logR).backups s0.nextId =
                          some c := by
                        have := ihb s0.nextId (by simp only []; omega)
                        rw [this]
                        exact setBackup_same _ _ _
                      constructor
                      · intro q hq
                        have hqd : q ≠ d := by
                          intro h
                          exact hq (by rw [h]; simp [moveDsts])
                        have hq' : q ∉ moveDsts rest := by
                          intro h
                          exact hq (by simp [moveDsts, h])
                        rw [rollbackScope_cons]
                        unfold undoChange
                        dsimp only
                        rw [hbak]
                        dsimp only
                        by_cases hqf : q = f
                        · subst hqf
                          rw [setFile_same]
                          exact hc.symm
                        · rw [setFile_other _ _ _ _ hqf]
                          rw [ihf q hq']
                          dsimp only
                          rw [setFile_other _ _ _ _ hqf,
                              setFile_other _ _ _ _ hqd]
                      · intro i hi
                        rw [rollbackScope_cons]
                        unfold undoChange
                        dsimp only
                        rw [hbak]
                        dsimp only
                        have hine : i ≠ s0.nextId := by omega
                        rw [setBackup_other _ _ _ _ hine]
                        have := ihb i (by simp only []; omega)
                        rw [this]
                        exact setBackup_other _ _ _ _ hine

/-- Claim C1 (amended): when an exception escapes an active transaction
scope after the recorded mutations succeeded, rolling the change log back
in reverse chronological order restores every file to its scope-entry
content — except the destination file of a move, which rollback (moving
the backup copy back to the source path) never deletes. -/
theorem c1_amended_rollback_restores_except_move_dst :
    ∀ (fs : FS) (ops : List MutOp) (s1 : EngineState) (log : List Change)
      (p : String),
      runMuts (initState fs) ops = some (s1, log) →
      p ∉ moveDsts ops →
      (rollbackScope s1 log).files p = fs p := by
  intro fs ops s1 log p hrun hp
  exact (rollback_restores ops (initState fs) s1 log
    (fun i _ => rfl) hrun).1 p hp

def c1wfs : FS := setFile (fun _ => none) "a.txt" (some "A")

theorem c1_amended_rollback_restores_except_move_dst_witness :
    ("a.txt" ∉ moveDsts [MutOp.edit "a.txt" "B"]) ∧
    (runMuts (initState c1wfs) [MutOp.edit "a.txt" "B"]).map
        (fun r => (rollbackScope r.1 r.2).files "a.txt") =
      some (c1wfs "a.txt") := by
  constructor
  · decide
  · cases hr : runMuts (initState c1wfs) [MutOp.edit "a.txt" "B"] with
    | none =>
        have hs : (runMuts (initState c1wfs)
            [MutOp.edit "a.txt" "B"]).isSome = true := by decide
        rw [hr] at hs
        simp at hs
    | some r =>
        obtain ⟨s1, log⟩ := r
        simp only [Option.map_some']
        exact congrArg some
          (c1_amended_rollback_restores_except_move_dst c1wfs
            [MutOp.edit "a.txt" "B"] s1 log "a.txt" hr (by decide))

/-- Counterexample to C1 as stated: a transaction whose only mutation is
a move, interrupted by an exception.  At scope entry `"b.txt"` does not
exist; the spec's rollback moves the backup copy back onto `"a.txt"` but
never deletes `"b.txt"`, so a file touched during the scope
(`"b.txt"`) still exists with the moved content after rollback. -/
def c1cexFs : FS := setFile (fun _ => none) "a.txt" (some "A")

theorem c1_cex_move_destination_survives_rollback :
    c1cexFs "b.txt" = none ∧
    (runMuts (initState c1cexFs) [MutOp.move "a.txt" "b.txt"]).map
        (fun r => (rollbackScope r.1 r.2).files "b.txt") =
      some (some "A") ∧
    (runMuts (initState c1cexFs) [MutOp.move "a.txt" "b.txt"]).map
        (fun r => (rollbackScope r.1 r.2).files "a.txt") =
      some (some "A") := by
  refine ⟨by decide, by decide, by decide⟩

end PlanetSim
